import Mathlib

/-!
Verification of the s3m locking layer (s3m.py): a shallow embedding of
path canonicalization, the per-path lock registry, the transaction-aware
acquire/release protocol of Connection, and the error hierarchy, together
with theorems checking the specification's claims against this embedding.
-/

namespace S3M

/-!
Part 1 — path canonicalization.

normalize_path in s3m.py computes
os.path.normcase(os.path.normpath(os.path.realpath(path))) for every path
other than the marker ":memory:", which is returned unchanged.  The model
below is for POSIX (normcase is the identity there) and for a filesystem
without symbolic links, in which os.path.realpath resolves a path purely
by making it absolute against the working directory and collapsing empty,
"." and ".." components semantically.  The working directory, as returned
by os.getcwd(), is given as the component list of an absolute path; its
components never contain the separator character.
-/

/-- The ".." path component of posixpath. -/
def pardir : List Char := ['.', '.']

/-- The "." path component of posixpath. -/
def curdir : List Char := ['.']

/-- Split a character list on the separator, mirroring str.split applied
    with the single separator character of posixpath. -/
def splitSep : List Char → List (List Char)
  | [] => [[]]
  | c :: cs =>
    if c = '/' then [] :: splitSep cs
    else
      match splitSep cs with
      | [] => [[c]]
      | h :: t => (c :: h) :: t

/-- Join components with the separator, mirroring sep.join of posixpath. -/
def joinSep : List (List Char) → List Char
  | [] => []
  | [c] => c
  | c :: c2 :: cs => c ++ '/' :: joinSep (c2 :: cs)

/-- One iteration of the component loop of posixpath.normpath; the Python
    list new_comps is kept reversed here, so its head is the component
    appended most recently. -/
def normStep (initialSlashes : Nat) (acc : List (List Char)) (comp : List Char) :
    List (List Char) :=
  if comp = [] ∨ comp = curdir then acc
  else if comp ≠ pardir ∨ (initialSlashes = 0 ∧ acc = []) ∨ acc.head? = some pardir then
    comp :: acc
  else if acc ≠ [] then acc.tail
  else acc

/-- posixpath.normpath on characters: collapse repeated separators and "."
    components, resolve ".." components textually, preserving the special
    double leading separator, and returning "." for an empty result. -/
def normpathChars (p : List Char) : List Char :=
  if p = [] then curdir
  else
    let initialSlashes : Nat :=
      if p.take 2 = ['/', '/'] ∧ ¬ p.take 3 = ['/', '/', '/'] then 2
      else if p.take 1 = ['/'] then 1
      else 0
    let newComps := (List.foldl (normStep initialSlashes) [] (splitSep p)).reverse
    let res := List.replicate initialSlashes '/' ++ joinSep newComps
    if res = [] then curdir else res

/-- One component step of the symlink-free walk of posixpath, as performed
    by os.path.realpath when no component is a symbolic link: empty and "."
    components are skipped, ".." removes the most recently resolved
    component (staying at the root when there is none), and any other name
    is appended.  The accumulator is kept reversed. -/
def resolveStep (acc : List (List Char)) (comp : List Char) : List (List Char) :=
  if comp = [] ∨ comp = curdir then acc
  else if comp = pardir then acc.tail
  else comp :: acc

/-- os.path.realpath for a filesystem with no symbolic links: make the path
    absolute against the working directory and resolve its components; the
    result is an absolute path. -/
def realpathChars (cwd : List (List Char)) (p : List Char) : List Char :=
  let comps := if p.take 1 = ['/'] then splitSep p else cwd ++ splitSep p
  '/' :: joinSep (List.foldl resolveStep [] comps).reverse

/-- The reserved marker for a private in-memory database. -/
def memoryMarker : String := ":memory:"

/-- os.path.normcase on POSIX: the identity on the string. -/
def normcase (s : String) : String := s

/-- normalize_path from s3m.py: the marker ":memory:" is returned
    unchanged; any other path is passed through realpath, normpath and
    normcase. -/
def normalize_path (cwd : List (List Char)) (path : String) : String :=
  if path = memoryMarker then path
  else normcase (String.mk (normpathChars (realpathChars cwd path.toList)))

example : normalize_path [] "/a/b/c/" = "/a/b/c" := by decide
example : normalize_path [] "/a/b/c" = "/a/b/c" := by decide
example : normalize_path [] "/a/b/c////////" = "/a/b/c" := by decide
example : normalize_path [] "///a/b/c" = "/a/b/c" := by decide
example : normalize_path [] "/a/././b/../b/c/" = "/a/b/c" := by decide
example : normalize_path [] ":memory:" = ":memory:" := by decide
example : normalize_path [['h'], ['o', 'm', 'e']] "x/./y" = "/h/ome/x/y" := by decide
example : normalize_path [['u']] "../../a" = "/a" := by decide

/-- A well-formed resolved path component: nonempty, not ".", not "..",
    and free of the separator. -/
def goodComp (c : List Char) : Prop :=
  c ≠ [] ∧ c ≠ curdir ∧ c ≠ pardir ∧ '/' ∉ c

/-- splitSep never returns the empty list of components. -/
theorem splitSep_ne_nil (l : List Char) : splitSep l ≠ [] := by
  induction l with
  | nil => simp [splitSep]
  | cons c cs ih =>
    by_cases h : c = '/'
    · simp [splitSep, h]
    · rcases hs : splitSep cs with _ | ⟨h0, t0⟩
      · exact absurd hs ih
      · simp [splitSep, h, hs]

/-- splitSep distributes over a separator in the middle. -/
theorem splitSep_append_sep (xs ys : List Char) :
    splitSep (xs ++ '/' :: ys) = splitSep xs ++ splitSep ys := by
  induction xs with
  | nil => simp [splitSep]
  | cons c cs ih =>
    by_cases h : c = '/'
    · simp [splitSep, h, ih]
    · rcases hs : splitSep cs with _ | ⟨h0, t0⟩
      · exact absurd hs (splitSep_ne_nil cs)
      · rw [List.cons_append]
        simp only [splitSep, if_neg h, ih, hs, List.cons_append]

/-- No component produced by splitSep contains the separator. -/
theorem splitSep_no_sep (l : List Char) : ∀ c ∈ splitSep l, '/' ∉ c := by
  induction l with
  | nil =>
    intro c hc
    simp [splitSep] at hc
    simp [hc]
  | cons c cs ih =>
    intro d hd
    by_cases h : c = '/'
    · simp [splitSep, h] at hd
      rcases hd with hd | hd
      · simp [hd]
      · exact ih d hd
    · rcases hs : splitSep cs with _ | ⟨h0, t0⟩
      · exact absurd hs (splitSep_ne_nil cs)
      · simp [splitSep, h, hs] at hd
        rcases hd with hd | hd
        · subst hd
          intro hmem
          rcases List.mem_cons.mp hmem with h1 | h1
          · exact h h1.symm
          · exact ih h0 (by simp [hs]) h1
        · exact ih d (by simp [hs, hd])

/-- A separator-free character list splits into itself alone. -/
theorem splitSep_of_no_sep (l : List Char) (h : '/' ∉ l) : splitSep l = [l] := by
  induction l with
  | nil => rfl
  | cons c cs ih =>
    have hc : ¬ c = '/' := fun hh => h (by simp [hh])
    have hcs : '/' ∉ cs := fun hh => h (List.mem_cons_of_mem c hh)
    rcases hs : splitSep cs with _ | ⟨h0, t0⟩
    · exact absurd hs (splitSep_ne_nil cs)
    · have := ih hcs
      rw [hs] at this
      simp at this
      simp [splitSep, hc, hs, this.1, this.2]

/-- Joining then splitting recovers separator-free components. -/
theorem splitSep_joinSep (R : List (List Char)) (hne : R ≠ [])
    (h : ∀ c ∈ R, '/' ∉ c) : splitSep (joinSep R) = R := by
  induction R with
  | nil => exact absurd rfl hne
  | cons c cs ih =>
    rcases cs with _ | ⟨c2, cs2⟩
    · simp [joinSep, splitSep_of_no_sep c (h c (by simp))]
    · rw [show joinSep (c :: c2 :: cs2) = c ++ '/' :: joinSep (c2 :: cs2) from rfl,
        splitSep_append_sep, splitSep_of_no_sep c (h c (by simp)),
        ih (by simp) fun d hd => h d (List.mem_cons_of_mem c hd)]
      rfl

/-- resolveStep ignores an empty component. -/
theorem resolveStep_nil (acc : List (List Char)) : resolveStep acc [] = acc := by
  simp [resolveStep]

/-- resolveStep ignores a "." component. -/
theorem resolveStep_curdir (acc : List (List Char)) : resolveStep acc curdir = acc := by
  simp [resolveStep]

/-- Folding resolveStep over separator-free components keeps every
    accumulated component well formed. -/
theorem foldl_resolveStep_good (comps : List (List Char)) :
    ∀ acc, (∀ c ∈ comps, '/' ∉ c) → (∀ c ∈ acc, goodComp c) →
      ∀ c ∈ List.foldl resolveStep acc comps, goodComp c := by
  induction comps with
  | nil =>
    intro acc _ hacc
    simpa using hacc
  | cons d ds ih =>
    intro acc hsep hacc
    rw [List.foldl_cons]
    refine ih _ (fun c hc => hsep c (List.mem_cons_of_mem d hc)) ?_
    unfold resolveStep
    by_cases h1 : d = [] ∨ d = curdir
    · rw [if_pos h1]
      exact hacc
    · by_cases h2 : d = pardir
      · rw [if_neg h1, if_pos h2]
        exact fun c hc => hacc c (List.mem_of_mem_tail hc)
      · rw [if_neg h1, if_neg h2]
        intro c hc
        rcases List.mem_cons.mp hc with hc | hc
        · subst hc
          push_neg at h1
          exact ⟨h1.1, h1.2, h2, hsep c (by simp)⟩
        · exact hacc c hc

/-- Folding resolveStep over well-formed components stacks them. -/
theorem foldl_resolveStep_of_good (comps : List (List Char)) :
    ∀ acc, (∀ c ∈ comps, goodComp c) →
      List.foldl resolveStep acc comps = comps.reverse ++ acc := by
  induction comps with
  | nil => simp
  | cons d ds ih =>
    intro acc hg
    obtain ⟨h1, h2, h3, _⟩ := hg d (by simp)
    rw [List.foldl_cons,
      show resolveStep acc d = d :: acc by
        unfold resolveStep
        rw [if_neg (by tauto), if_neg h3],
      ih (d :: acc) fun c hc => hg c (List.mem_cons_of_mem d hc)]
    simp

/-- Folding normStep over well-formed components stacks them, for any
    count of leading separators. -/
theorem foldl_normStep_of_good (i : Nat) (comps : List (List Char)) :
    ∀ acc, (∀ c ∈ comps, goodComp c) →
      List.foldl (normStep i) acc comps = comps.reverse ++ acc := by
  induction comps with
  | nil => simp
  | cons d ds ih =>
    intro acc hg
    obtain ⟨h1, h2, h3, _⟩ := hg d (by simp)
    rw [List.foldl_cons,
      show normStep i acc d = d :: acc by
        unfold normStep
        rw [if_neg (by tauto), if_pos (Or.inl h3)],
      ih (d :: acc) fun c hc => hg c (List.mem_cons_of_mem d hc)]
    simp

/-- splitSep after a leading separator. -/
theorem splitSep_cons_sep (l : List Char) : splitSep ('/' :: l) = [] :: splitSep l := by
  simp [splitSep]

/-- The list of characters underlying a string built from one. -/
theorem toList_mk (l : List Char) : (String.mk l).toList = l := rfl

/-- normpathChars on an absolute path with a single leading separator. -/
theorem normpathChars_abs (l : List Char) (h1 : l.take 1 ≠ ['/']) :
    normpathChars ('/' :: l) =
      '/' :: joinSep ((List.foldl (normStep 1) [] (splitSep l)).reverse) := by
  have hne : ('/' :: l) ≠ [] := by simp
  have htake2 : ('/' :: l).take 2 = '/' :: l.take 1 := by simp
  have hcond : ¬ (('/' :: l).take 2 = ['/', '/'] ∧ ¬ ('/' :: l).take 3 = ['/', '/', '/']) := by
    rintro ⟨ha, _⟩
    rw [htake2] at ha
    exact h1 (by simpa using ha)
  have htake1 : ('/' :: l).take 1 = ['/'] := by simp
  unfold normpathChars
  rw [if_neg hne]
  dsimp only
  rw [if_neg hcond, if_pos htake1, splitSep_cons_sep, List.foldl_cons,
    show normStep 1 [] [] = [] by simp [normStep]]
  simp

/-- normpathChars fixes an absolute path assembled from well-formed
    components. -/
theorem normpathChars_fix (R : List (List Char)) (hg : ∀ c ∈ R, goodComp c) :
    normpathChars ('/' :: joinSep R) = '/' :: joinSep R := by
  rcases R with _ | ⟨r, R2⟩
  · decide
  · obtain ⟨hr1, hr2, hr3, hr4⟩ := hg r (by simp)
    obtain ⟨rest, hj⟩ : ∃ rest, joinSep (r :: R2) = r ++ rest := by
      rcases R2 with _ | ⟨c2, cs2⟩
      · exact ⟨[], by simp [joinSep]⟩
      · exact ⟨'/' :: joinSep (c2 :: cs2), rfl⟩
    obtain ⟨rc, rr, hrc⟩ : ∃ a l2, r = a :: l2 := by
      rcases r with _ | ⟨a, l2⟩
      · exact absurd rfl hr1
      · exact ⟨a, l2, rfl⟩
    have htake : (joinSep (r :: R2)).take 1 ≠ ['/'] := by
      rw [hj, hrc]
      simp only [List.cons_append, List.take_succ_cons, List.take_zero]
      intro hh
      have hrcs : rc = '/' := by simpa using hh
      exact hr4 (by simp [hrc, hrcs])
    rw [normpathChars_abs _ htake,
      splitSep_joinSep (r :: R2) (by simp) (fun c hc => (hg c hc).2.2.2),
      foldl_normStep_of_good 1 (r :: R2) [] hg]
    simp

/-- realpathChars fixes an absolute path assembled from well-formed
    components, for any working directory. -/
theorem realpathChars_fix (cwd2 : List (List Char)) (R : List (List Char))
    (hg : ∀ c ∈ R, goodComp c) :
    realpathChars cwd2 ('/' :: joinSep R) = '/' :: joinSep R := by
  have htake1 : ('/' :: joinSep R).take 1 = ['/'] := by simp
  rcases R with _ | ⟨r, R2⟩
  · simp [realpathChars, joinSep, splitSep, resolveStep]
  · unfold realpathChars
    dsimp only
    rw [if_pos htake1, splitSep_cons_sep,
      splitSep_joinSep (r :: R2) (by simp) (fun c hc => (hg c hc).2.2.2),
      List.foldl_cons, resolveStep_nil, foldl_resolveStep_of_good (r :: R2) [] hg]
    simp

/-- The shape of normalize_path off the marker: an absolute path built
    from well-formed components, provided the working directory's
    components are separator-free. -/
theorem normalize_path_eq_abs (cwd : List (List Char)) (p : String)
    (hm : p ≠ memoryMarker) (hcwd : ∀ c ∈ cwd, '/' ∉ c) :
    ∃ R, (∀ c ∈ R, goodComp c)
      ∧ realpathChars cwd p.toList = '/' :: joinSep R
      ∧ normalize_path cwd p = String.mk ('/' :: joinSep R) := by
  set comps := if p.toList.take 1 = ['/'] then splitSep p.toList
    else cwd ++ splitSep p.toList with hcomps
  have hsep : ∀ c ∈ comps, '/' ∉ c := by
    rw [hcomps]
    split
    · exact splitSep_no_sep p.toList
    · intro c hc
      rcases List.mem_append.mp hc with hc | hc
      · exact hcwd c hc
      · exact splitSep_no_sep p.toList c hc
  refine ⟨(List.foldl resolveStep [] comps).reverse, ?_, rfl, ?_⟩
  · intro c hc
    exact foldl_resolveStep_good comps [] hsep (by simp) c (List.mem_reverse.mp hc)
  · unfold normalize_path
    rw [if_neg hm]
    show String.mk (normpathChars (realpathChars cwd p.toList)) = _
    rw [show realpathChars cwd p.toList
          = '/' :: joinSep (List.foldl resolveStep [] comps).reverse from rfl,
      normpathChars_fix _ fun c hc =>
        foldl_resolveStep_good comps [] hsep (by simp) c (List.mem_reverse.mp hc)]

/-- C5 core: canonicalization is idempotent; the working directory of the
    second application is arbitrary because the first result is already
    absolute. -/
theorem normalize_path_idem (cwd cwd2 : List (List Char)) (p : String)
    (hcwd : ∀ c ∈ cwd, '/' ∉ c) :
    normalize_path cwd2 (normalize_path cwd p) = normalize_path cwd p := by
  by_cases hm : p = memoryMarker
  · subst hm
    rfl
  · obtain ⟨R, hg, _, hout⟩ := normalize_path_eq_abs cwd p hm hcwd
    rw [hout]
    have hms : String.mk ('/' :: joinSep R) ≠ memoryMarker := by
      intro hh
      have hdata : ('/' :: joinSep R)
          = [':', 'm', 'e', 'm', 'o', 'r', 'y', ':'] := by
        have := congrArg String.toList hh
        rwa [toList_mk,
          show memoryMarker.toList = [':', 'm', 'e', 'm', 'o', 'r', 'y', ':'] from by decide]
          at this
      injection hdata with hhead _
      exact absurd hhead (by decide)
    unfold normalize_path
    rw [if_neg hms, toList_mk, realpathChars_fix cwd2 R hg, normpathChars_fix R hg]
    rfl

/-- Appending strings appends their character lists. -/
theorem toList_append (s t : String) : (s ++ t).toList = s.toList ++ t.toList := by
  cases s
  cases t
  rfl

/-- A nonempty string has a nonempty character list. -/
theorem toList_ne_nil (s : String) (h : s ≠ "") : s.toList ≠ [] := by
  cases s with
  | mk data =>
    intro hh
    apply h
    rw [show data = [] from hh]

/-- A string whose characters include the separator is not the marker. -/
theorem ne_marker_of_mem_sep (s : String) (h : '/' ∈ s.toList) : s ≠ memoryMarker := by
  intro hh
  subst hh
  exact absurd h (by decide)

/-- The first character of a path that continues after a separator does
    not depend on what follows the separator. -/
theorem take1_sep_eq (l m m2 : List Char) :
    (l ++ '/' :: m).take 1 = (l ++ '/' :: m2).take 1 := by
  cases l <;> simp

/-- One non-separator character extends the first component of a split. -/
theorem splitSep_cons_ne (c : Char) (hc : ¬ c = '/') (cs : List Char)
    (h0 : List Char) (t0 : List (List Char)) (hs : splitSep cs = h0 :: t0) :
    splitSep (c :: cs) = (c :: h0) :: t0 := by
  unfold splitSep
  rw [if_neg hc, hs]

/-- splitSep around a "./" pair. -/
theorem splitSep_curdir_sep (l : List Char) :
    splitSep ('.' :: '/' :: l) = curdir :: splitSep l :=
  splitSep_cons_ne '.' (by decide) _ [] (splitSep l) (splitSep_cons_sep l)

/-- splitSep around a "../" triple. -/
theorem splitSep_pardir_sep (l : List Char) :
    splitSep ('.' :: '.' :: '/' :: l) = pardir :: splitSep l :=
  splitSep_cons_ne '.' (by decide) _ ['.'] (splitSep l) (splitSep_curdir_sep l)

/-- Inserting a skipped component (empty or ".") into the component walk
    changes nothing. -/
theorem foldl_resolveStep_insert (d : List Char) (hd : d = [] ∨ d = curdir)
    (l1 l2 b : List (List Char)) :
    List.foldl resolveStep b (l1 ++ d :: l2) = List.foldl resolveStep b (l1 ++ l2) := by
  rw [List.foldl_append, List.foldl_append, List.foldl_cons,
    show resolveStep (List.foldl resolveStep b l1) d = List.foldl resolveStep b l1 by
      unfold resolveStep
      rw [if_pos hd]]

/-- ".." after a pushed component pops exactly that component. -/
theorem resolveStep_pardir_cons (n : List Char) (acc : List (List Char)) :
    resolveStep (n :: acc) pardir = acc := by
  unfold resolveStep
  rw [if_neg (by decide), if_pos rfl]
  rfl

/-- A well-formed component followed by ".." cancels out of the walk. -/
theorem foldl_resolveStep_push_pop (n : List Char) (hg : goodComp n)
    (l1 l2 b : List (List Char)) :
    List.foldl resolveStep b (l1 ++ n :: pardir :: l2)
      = List.foldl resolveStep b (l1 ++ l2) := by
  obtain ⟨h1, h2, h3, _⟩ := hg
  rw [List.foldl_append, List.foldl_append, List.foldl_cons, List.foldl_cons,
    show resolveStep (List.foldl resolveStep b l1) n = n :: List.foldl resolveStep b l1 by
      unfold resolveStep
      rw [if_neg (by tauto), if_neg h3],
    resolveStep_pardir_cons]

/-- normalize_path only looks at the path through realpathChars once the
    marker is excluded. -/
theorem normalize_path_congr_realpath (cwd : List (List Char)) (p q : String)
    (hp : p ≠ memoryMarker) (hq : q ≠ memoryMarker)
    (h : realpathChars cwd p.toList = realpathChars cwd q.toList) :
    normalize_path cwd p = normalize_path cwd q := by
  unfold normalize_path
  rw [if_neg hp, if_neg hq, h]

/-- realpathChars only depends on the first character and on the component
    walk of the split. -/
theorem realpathChars_congr (cwd : List (List Char)) (p q : List Char)
    (htake : (p.take 1 = ['/']) ↔ (q.take 1 = ['/']))
    (hfold : ∀ b, List.foldl resolveStep b (splitSep p) = List.foldl resolveStep b (splitSep q)) :
    realpathChars cwd p = realpathChars cwd q := by
  unfold realpathChars
  dsimp only
  by_cases habs : p.take 1 = ['/']
  · rw [if_pos habs, if_pos (htake.mp habs), hfold []]
  · rw [if_neg habs, if_neg fun hh => habs (htake.mpr hh), List.foldl_append,
      List.foldl_append, hfold (List.foldl resolveStep [] cwd)]

/-- C5 part: a trailing separator does not change the key. -/
theorem normalize_path_trailing_sep (cwd : List (List Char)) (s : String)
    (h0 : s ≠ "") (hm : s ≠ memoryMarker) :
    normalize_path cwd (s ++ "/") = normalize_path cwd s := by
  have htl : (s ++ "/").toList = s.toList ++ '/' :: [] := by
    rw [toList_append]
    rfl
  refine normalize_path_congr_realpath cwd _ _ ?_ hm (realpathChars_congr cwd _ _ ?_ ?_)
  · exact ne_marker_of_mem_sep _ (by rw [htl]; simp)
  · obtain ⟨a, l, hl⟩ := List.exists_cons_of_ne_nil (toList_ne_nil s h0)
    rw [htl, hl]
    simp
  · intro b
    rw [htl, splitSep_append_sep, show splitSep [] = [[]] from rfl, List.foldl_append,
      List.foldl_cons, resolveStep_nil]
    rfl

/-- C5 part: a repeated separator does not change the key. -/
theorem normalize_path_double_sep (cwd : List (List Char)) (a b : String) :
    normalize_path cwd (a ++ "//" ++ b) = normalize_path cwd (a ++ "/" ++ b) := by
  have htl1 : (a ++ "//" ++ b).toList = a.toList ++ '/' :: '/' :: b.toList := by
    rw [toList_append, toList_append]
    simp [List.append_assoc]
  have htl2 : (a ++ "/" ++ b).toList = a.toList ++ '/' :: b.toList := by
    rw [toList_append, toList_append]
    simp [List.append_assoc]
  refine normalize_path_congr_realpath cwd _ _ ?_ ?_ (realpathChars_congr cwd _ _ ?_ ?_)
  · exact ne_marker_of_mem_sep _ (by rw [htl1]; simp)
  · exact ne_marker_of_mem_sep _ (by rw [htl2]; simp)
  · rw [htl1, htl2]
    exact Eq.to_iff (congrArg (fun t => t = ['/']) (take1_sep_eq _ _ _))
  · intro b0
    rw [htl1, htl2, splitSep_append_sep, splitSep_append_sep, splitSep_cons_sep,
      foldl_resolveStep_insert [] (Or.inl rfl)]

/-- C5 part: a redundant "." segment does not change the key. -/
theorem normalize_path_curdir_seg (cwd : List (List Char)) (a b : String) :
    normalize_path cwd (a ++ "/./" ++ b) = normalize_path cwd (a ++ "/" ++ b) := by
  have htl1 : (a ++ "/./" ++ b).toList = a.toList ++ '/' :: '.' :: '/' :: b.toList := by
    rw [toList_append, toList_append]
    simp [List.append_assoc]
  have htl2 : (a ++ "/" ++ b).toList = a.toList ++ '/' :: b.toList := by
    rw [toList_append, toList_append]
    simp [List.append_assoc]
  refine normalize_path_congr_realpath cwd _ _ ?_ ?_ (realpathChars_congr cwd _ _ ?_ ?_)
  · exact ne_marker_of_mem_sep _ (by rw [htl1]; simp)
  · exact ne_marker_of_mem_sep _ (by rw [htl2]; simp)
  · rw [htl1, htl2]
    exact Eq.to_iff (congrArg (fun t => t = ['/']) (take1_sep_eq _ _ _))
  · intro b0
    rw [htl1, htl2, splitSep_append_sep, splitSep_append_sep, splitSep_curdir_sep,
      foldl_resolveStep_insert curdir (Or.inr rfl)]

/-- C5 part: a name segment followed by ".." cancels, leaving the key of
    the clean form. -/
theorem normalize_path_pardir_seg (cwd : List (List Char)) (a b : String)
    (n : List Char) (hg : goodComp n) :
    normalize_path cwd (a ++ "/" ++ String.mk n ++ "/../" ++ b)
      = normalize_path cwd (a ++ "/" ++ b) := by
  have htl1 : (a ++ "/" ++ String.mk n ++ "/../" ++ b).toList
      = a.toList ++ '/' :: (n ++ '/' :: '.' :: '.' :: '/' :: b.toList) := by
    rw [toList_append, toList_append, toList_append, toList_append]
    simp [List.append_assoc]
  have htl2 : (a ++ "/" ++ b).toList = a.toList ++ '/' :: b.toList := by
    rw [toList_append, toList_append]
    simp [List.append_assoc]
  refine normalize_path_congr_realpath cwd _ _ ?_ ?_ (realpathChars_congr cwd _ _ ?_ ?_)
  · exact ne_marker_of_mem_sep _ (by rw [htl1]; simp)
  · exact ne_marker_of_mem_sep _ (by rw [htl2]; simp)
  · rw [htl1, htl2]
    exact Eq.to_iff (congrArg (fun t => t = ['/']) (take1_sep_eq _ _ _))
  · intro b0
    rw [htl1, htl2, splitSep_append_sep, splitSep_append_sep, splitSep_append_sep,
      splitSep_of_no_sep n hg.2.2.2, splitSep_pardir_sep]
    rw [show ([n] : List (List Char)) ++ pardir :: splitSep b.toList
          = n :: pardir :: splitSep b.toList from rfl,
      foldl_resolveStep_push_pop n hg]

/-!
Part 2 — locks, the Connection protocol and the registry.

The module state of s3m.py is the dict CONNECTION_LOCKS from normalized
paths to threading.RLock objects, guarded by DICT_LOCK; this sequential
model treats each guarded section as atomic and represents the dict by its
key list in insertion order.  A contended bounded acquisition is resolved
by an environment input saying whether the lock became available within
the timeout window (it is always available when free or held reentrantly
by the calling thread); an unbounded wait is modelled as eventually
succeeding.
-/

/-- Outcome of threading.RLock.acquire with a timeout argument, per
    CPython: a timeout below zero other than the sentinel -1 raises
    ValueError ("timeout value must be positive"); a timeout above
    threading.TIMEOUT_MAX raises OverflowError; the sentinel -1 waits
    without bound; any other value waits at most that long and returns
    whether the lock was obtained. -/
inductive AcquireOutcome where
  | ok (granted : Bool)
  | valueError
  | overflowError
deriving DecidableEq, Repr

/-- threading.TIMEOUT_MAX, the largest timeout acquire accepts.  The
    value is platform dependent; this is the one CPython reports on the
    reference platform (Linux, 64-bit time_t), in seconds.  acquire at
    exactly this value succeeds, above it raises OverflowError. -/
def TIMEOUT_MAX : ℚ := 9223372036

/-- threading.RLock.acquire(timeout) as a function of the timeout and of
    whether the lock becomes available to the caller within the window.
    The negative-timeout ValueError is checked before the TIMEOUT_MAX
    OverflowError, both before any waiting, as in CPython. -/
def rlockAcquire (timeout : ℚ) (availableWithinTimeout : Bool) : AcquireOutcome :=
  if timeout < 0 ∧ timeout ≠ -1 then .valueError
  else if timeout > TIMEOUT_MAX then .overflowError
  else if timeout = -1 then .ok true
  else .ok availableWithinTimeout

/-- FakeLock.acquire ignores its arguments and returns True. -/
def fakeLockAcquire : Bool := true

/-- FakeLock.release ignores its arguments and returns True. -/
def fakeLockRelease : Bool := true

/-- Which lock a Connection holds a reference to: the FakeLock used for
    ":memory:" paths, or the per-path threading.RLock from the registry. -/
inductive LockKind where
  | fake
  | real
deriving DecidableEq, Repr

/-- self.lock.acquire(timeout) for either kind of lock.  FakeLock accepts
    and ignores every argument, so it can never raise. -/
def lockAcquire (kind : LockKind) (timeout : ℚ) (avail : Bool) : AcquireOutcome :=
  match kind with
  | .fake => .ok fakeLockAcquire
  | .real => rlockAcquire timeout avail

/-- The per-connection state of s3m.Connection: the normalized path, the
    lock reference, the attributes set in Connection.__init__, and the
    observable state of the wrapped sqlite3 connection and cursor
    (whether each has been closed, and the engine-reported in_transaction
    flag). -/
structure Conn where
  path : String
  lock : LockKind
  lock_timeout : ℚ
  lock_transactions : Bool
  was_in_transaction : Bool
  closed : Bool
  cursorClosed : Bool
  handleClosed : Bool
  inTransaction : Bool
deriving DecidableEq, Repr

/-- The exceptions the protocol can surface: LockTimeoutError(conn) stores
    the offending connection and its configured numeric timeout (which the
    default message embeds); ValueError from a negative acquire timeout;
    OverflowError from a timeout above threading.TIMEOUT_MAX; and any
    sqlite3 engine error, identified by an opaque code and never
    wrapped. -/
inductive PyError where
  | lockTimeout (connection : Conn) (timeout : ℚ)
  | valueError
  | overflowError
  | engine (code : Nat)
deriving DecidableEq, Repr

deriving instance DecidableEq for Except

/-- Observable lock operations performed by the protocol. -/
inductive LockEvent where
  | acquireAttempt (kind : LockKind) (timeout : ℚ)
  | release (kind : LockKind)
deriving DecidableEq, Repr

/-- Connection.__enter__: acquire the lock (bounded by lock_timeout)
    unless the connection is already in a transaction with
    lock_transactions enabled; when acquire returns False raise
    LockTimeoutError(self); finally record was_in_transaction from the
    engine-reported transaction state.  Returns the updated connection or
    the raised error, together with the lock operations performed. -/
def Conn.enter (c : Conn) (avail : Bool) : Except PyError Conn × List LockEvent :=
  if !c.inTransaction || !c.lock_transactions then
    match lockAcquire c.lock c.lock_timeout avail with
    | .valueError =>
      (.error .valueError, [.acquireAttempt c.lock c.lock_timeout])
    | .overflowError =>
      (.error .overflowError, [.acquireAttempt c.lock c.lock_timeout])
    | .ok false =>
      (.error (.lockTimeout c c.lock_timeout), [.acquireAttempt c.lock c.lock_timeout])
    | .ok true =>
      (.ok { c with was_in_transaction := c.inTransaction },
       [.acquireAttempt c.lock c.lock_timeout])
  else
    (.ok { c with was_in_transaction := c.inTransaction }, [])

/-- Reading self.connection.in_transaction: sqlite3 raises
    ProgrammingError once the underlying connection has been closed. -/
def Conn.readInTransaction (c : Conn) : Except Unit Bool :=
  if c.handleClosed then .error () else .ok c.inTransaction

/-- The transaction state __exit__ works with: the engine-reported value,
    with a ProgrammingError from a closed handle caught and treated as
    False. -/
def Conn.effectiveInTransaction (c : Conn) : Bool :=
  match c.readInTransaction with
  | .error _ => false
  | .ok b => b

/-- Connection.__exit__: re-read the transaction state (a closed handle
    counts as not in a transaction); with lock_transactions disabled
    release unconditionally; otherwise release exactly when the
    connection was in a transaction that has now ended, or is in no
    transaction at all.  It never raises; the returned list holds the
    release operations performed. -/
def Conn.exit (c : Conn) : List LockEvent :=
  let in_transaction := c.effectiveInTransaction
  if !c.lock_transactions then [.release c.lock]
  else if (c.was_in_transaction && !in_transaction) || !in_transaction then [.release c.lock]
  else []

/-- Connection.close: a no-op once the closed latch is set; otherwise
    close the cursor and the engine connection and set the latch.  It
    performs no lock operation (the empty event list records that). -/
def Conn.close (c : Conn) : Conn × List LockEvent :=
  if c.closed then (c, [])
  else ({ c with cursorClosed := true, handleClosed := true, closed := true }, [])

/-- Connection.__del__ simply calls close. -/
def Conn.del (c : Conn) : Conn × List LockEvent :=
  c.close

/-- One call into the underlying engine, supplied as an environment
    input: its result (a value, or a sqlite3 error code that the wrapper
    must propagate) and the engine-reported transaction state after the
    call. -/
structure EngineStep (α : Type) where
  result : Except Nat α
  inTransactionAfter : Bool

/-- The outcome of one delegated operation: the propagated result or
    error, the connection state afterwards, the lock operations in order,
    and whether the engine was actually invoked. -/
structure OpResult (α : Type) where
  result : Except PyError α
  conn : Conn
  events : List LockEvent
  engineCalled : Bool

/-- The body shared by every delegated operation: with self as scope,
    perform one engine call.  Python runs __exit__ also when the body
    raises, and __exit__ returning None lets the body's exception
    propagate unchanged. -/
def Conn.withSelf (c : Conn) (avail : Bool) (step : EngineStep α) : OpResult α :=
  match c.enter avail with
  | (.error e, evs) => ⟨.error e, c, evs, false⟩
  | (.ok c1, evs) =>
    let c2 := { c1 with inTransaction := step.inTransactionAfter }
    match step.result with
    | .error n => ⟨.error (.engine n), c2, evs ++ c2.exit, true⟩
    | .ok a => ⟨.ok a, c2, evs ++ c2.exit, true⟩

/-- Turn the shared body into a chained operation: the chain decorator
    returns self after the wrapped call, and propagates its exception. -/
def Conn.chained (c : Conn) (avail : Bool) (step : EngineStep Unit) : OpResult Conn :=
  let r := c.withSelf avail step
  ⟨r.result.map fun _ => r.conn, r.conn, r.events, r.engineCalled⟩

/-- Connection.execute: with self, cursor.execute; chained. -/
def Conn.execute (c : Conn) (avail : Bool) (step : EngineStep Unit) : OpResult Conn :=
  c.chained avail step

/-- Connection.executemany: with self, cursor.executemany; chained. -/
def Conn.executemany (c : Conn) (avail : Bool) (step : EngineStep Unit) : OpResult Conn :=
  c.chained avail step

/-- Connection.executescript: with self, cursor.executescript; chained. -/
def Conn.executescript (c : Conn) (avail : Bool) (step : EngineStep Unit) : OpResult Conn :=
  c.chained avail step

/-- Connection.commit: with self, connection.commit. -/
def Conn.commit (c : Conn) (avail : Bool) (step : EngineStep Unit) : OpResult Unit :=
  c.withSelf avail step

/-- Connection.rollback: with self, connection.rollback. -/
def Conn.rollback (c : Conn) (avail : Bool) (step : EngineStep Unit) : OpResult Unit :=
  c.withSelf avail step

/-- A fetched row, kept abstract. -/
def Row : Type := List Nat

/-- Connection.fetchone: with self, cursor.fetchone. -/
def Conn.fetchone (c : Conn) (avail : Bool) (step : EngineStep (Option Row)) :
    OpResult (Option Row) :=
  c.withSelf avail step

/-- The module constant DEFAULT_FETCHMANY_SIZE. -/
def DEFAULT_FETCHMANY_SIZE : Nat := 1000

/-- Connection.fetchmany: with self, cursor.fetchmany(size); the size
    argument defaults to DEFAULT_FETCHMANY_SIZE at the call site. -/
def Conn.fetchmany (c : Conn) (avail : Bool) (_size : Nat) (step : EngineStep (List Row)) :
    OpResult (List Row) :=
  c.withSelf avail step

/-- Connection.fetchall: with self, cursor.fetchall. -/
def Conn.fetchall (c : Conn) (avail : Bool) (step : EngineStep (List Row)) :
    OpResult (List Row) :=
  c.withSelf avail step

/-- The module state: the key list of CONNECTION_LOCKS in insertion
    order, and every Connection object created so far. -/
structure World where
  registry : List String
  conns : List Conn
deriving DecidableEq, Repr

/-- Connection.__init__: normalize the path and connect; a ":memory:"
    path gets a FakeLock and the registry is not consulted; any other
    path looks its lock up under DICT_LOCK, inserting a fresh RLock on
    the first binding.  Nothing is ever removed from the registry. -/
def World.openConn (cwd : List (List Char)) (w : World) (path : String)
    (lock_transactions : Bool) (lock_timeout : ℚ) : World :=
  let np := normalize_path cwd path
  let base : Conn :=
    { path := np, lock := .fake, lock_timeout := lock_timeout,
      lock_transactions := lock_transactions, was_in_transaction := false,
      closed := false, cursorClosed := false, handleClosed := false,
      inTransaction := false }
  if np = memoryMarker then
    { w with conns := w.conns ++ [base] }
  else if np ∈ w.registry then
    { w with conns := w.conns ++ [{ base with lock := .real }] }
  else
    { registry := w.registry ++ [np], conns := w.conns ++ [{ base with lock := .real }] }

/-- Close the connection at an index (out of range: no change). -/
def closeAt : List Conn → Nat → List Conn
  | [], _ => []
  | c :: cs, 0 => (c.close).1 :: cs
  | c :: cs, n + 1 => c :: closeAt cs n

/-- Connection.close at the world level: only that connection changes;
    in particular the registry is untouched. -/
def World.closeConn (w : World) (i : Nat) : World :=
  { w with conns := closeAt w.conns i }

/-- A session-lifecycle event: constructing a Connection, or closing the
    connection at an index. -/
inductive SessionEvent where
  | openPath (path : String) (lock_transactions : Bool) (lock_timeout : ℚ)
  | closeIdx (i : Nat)
deriving DecidableEq, Repr

/-- Apply one session-lifecycle event. -/
def World.step (cwd : List (List Char)) (w : World) : SessionEvent → World
  | .openPath p lt lto => w.openConn cwd p lt lto
  | .closeIdx i => w.closeConn i

/-- Run a trace of session-lifecycle events from the initial module state
    (an empty CONNECTION_LOCKS dict, no connections). -/
def World.run (cwd : List (List Char)) (es : List SessionEvent) : World :=
  es.foldl (World.step cwd) ⟨[], []⟩

/-!
Part 3 — the exception hierarchy of s3m.py.

class S3MError(BaseException) and class LockTimeoutError(S3MError);
CPython's Exception is the subclass of BaseException that except clauses
written as except Exception catch.
-/

/-- The classes relevant to the error-hierarchy claims. -/
inductive PyClassId where
  | baseException
  | exception
  | s3mError
  | lockTimeoutError
deriving DecidableEq, Repr

/-- The declared direct base of each class: S3MError derives from
    BaseException (s3m.py line 19), LockTimeoutError from S3MError
    (line 22), and Exception from BaseException (CPython builtins). -/
def pyBase : PyClassId → Option PyClassId
  | .baseException => none
  | .exception => some .baseException
  | .s3mError => some .baseException
  | .lockTimeoutError => some .s3mError

/-- The inheritance chain of a class, computed from pyBase with enough
    fuel for this finite hierarchy. -/
def ancestorsFrom : Nat → PyClassId → List PyClassId
  | 0, c => [c]
  | n + 1, c =>
    c :: (match pyBase c with
          | none => []
          | some p => ancestorsFrom n p)

/-- issubclass(a, b) over the modelled hierarchy. -/
def pyIsSubclass (a b : PyClassId) : Bool :=
  b ∈ ancestorsFrom 4 a

/-- Whether an except clause naming the first class catches a raised
    instance of the second. -/
def pyCatches (handler raised : PyClassId) : Bool :=
  pyIsSubclass raised handler

/-!
Part 4 — the claims.
-/

/-- C10: S3MError derives from BaseException rather than Exception, so
    LockTimeoutError, its subclass, is not a subclass of Exception, and a
    handler written as except Exception does not catch a LockTimeout
    raised during enter, while a BaseException handler does. -/
theorem c10_s3merror_escapes_exception_handlers :
    pyBase .s3mError = some .baseException
    ∧ pyIsSubclass .s3mError .baseException = true
    ∧ pyIsSubclass .s3mError .exception = false
    ∧ pyIsSubclass .lockTimeoutError .s3mError = true
    ∧ pyIsSubclass .lockTimeoutError .exception = false
    ∧ pyCatches .exception .lockTimeoutError = false
    ∧ pyCatches .baseException .lockTimeoutError = true := by
  decide

/-- C2: Connection.__enter__ attempts lock acquisition exactly when the
    engine reports no open transaction or lock_transactions is disabled,
    skips it when a transaction is open with lock_transactions enabled,
    and on a successful enter records was_in_transaction as the
    transaction state read at entry. -/
theorem c2_enter_acquires_iff_no_transaction_or_locking_disabled :
    ∀ (c : Conn) (avail : Bool),
      ((c.enter avail).2 = [.acquireAttempt c.lock c.lock_timeout] ↔
        (c.inTransaction = false ∨ c.lock_transactions = false))
      ∧ ((c.enter avail).2 = [] ↔
        (c.inTransaction = true ∧ c.lock_transactions = true))
      ∧ (∀ c2, (c.enter avail).1 = .ok c2 → c2.was_in_transaction = c.inTransaction) := by
  intro c avail
  rcases Bool.eq_false_or_eq_true c.inTransaction with h1 | h1 <;>
    rcases Bool.eq_false_or_eq_true c.lock_transactions with h2 | h2 <;>
      cases hl : lockAcquire c.lock c.lock_timeout avail with
      | valueError => refine ⟨?_, ?_, ?_⟩ <;> simp [Conn.enter, h1, h2, hl]
      | overflowError => refine ⟨?_, ?_, ?_⟩ <;> simp [Conn.enter, h1, h2, hl]
      | ok g =>
        cases g <;> refine ⟨?_, ?_, ?_⟩ <;> simp [Conn.enter, h1, h2, hl]

/-- C3: __exit__ with lock_transactions disabled always releases; with it
    enabled it releases exactly when the effective transaction state is
    false, a closed engine handle counting as not in a transaction
    instead of raising (the ProgrammingError is caught); in the remaining
    case, an open transaction, no release happens. -/
theorem c3_exit_release_decision :
    ∀ c : Conn,
      (c.lock_transactions = false → c.exit = [.release c.lock])
      ∧ (c.lock_transactions = true →
          (c.exit = [.release c.lock] ↔ c.effectiveInTransaction = false))
      ∧ (c.handleClosed = true → c.effectiveInTransaction = false)
      ∧ (c.lock_transactions = true → c.effectiveInTransaction = true → c.exit = []) := by
  intro c
  refine ⟨?_, ?_, ?_, ?_⟩
  · intro h
    simp [Conn.exit, h]
  · intro h
    rcases Bool.eq_false_or_eq_true c.effectiveInTransaction with ht | ht <;>
      simp [Conn.exit, h, ht]
  · intro h
    simp [Conn.effectiveInTransaction, Conn.readInTransaction, h]
  · intro h ht
    simp [Conn.exit, h, ht]

/-- A connection as built by connect on a filesystem path with the default
    lock_timeout of -1, before any operation. -/
def sampleConn : Conn :=
  { path := "/tmp/db", lock := .real, lock_timeout := -1, lock_transactions := true,
    was_in_transaction := false, closed := false, cursorClosed := false,
    handleClosed := false, inTransaction := false }

/-- C2 witness at sampleConn: acquisition is attempted on a fresh
    connection, and was_in_transaction is recorded from the entry state. -/
theorem c2_enter_witness :
    ({ sampleConn with was_in_transaction := sampleConn.inTransaction }).was_in_transaction
      = sampleConn.inTransaction :=
  (c2_enter_acquires_iff_no_transaction_or_locking_disabled sampleConn true).2.2
    { sampleConn with was_in_transaction := sampleConn.inTransaction } (by decide)

/-- C3 witness: the release decision evaluated through the theorem on a
    connection with lock_transactions disabled, on one whose handle is
    closed, and on one still inside a transaction. -/
theorem c3_exit_witness :
    ({ sampleConn with lock_transactions := false }).exit
        = [.release sampleConn.lock]
    ∧ ({ sampleConn with handleClosed := true }).effectiveInTransaction = false
    ∧ ({ sampleConn with inTransaction := true, was_in_transaction := true }).exit = [] :=
  ⟨(c3_exit_release_decision { sampleConn with lock_transactions := false }).1 rfl,
   (c3_exit_release_decision { sampleConn with handleClosed := true }).2.2.1 rfl,
   (c3_exit_release_decision
      { sampleConn with inTransaction := true, was_in_transaction := true }).2.2.2 rfl rfl⟩

/-- Acquisition with the sentinel timeout -1 always succeeds: the bounded
    wait becomes an unbounded one, whose eventual success this sequential
    model records as True. -/
theorem rlockAcquire_neg_one (avail : Bool) : rlockAcquire (-1) avail = .ok true := by
  norm_num [rlockAcquire, TIMEOUT_MAX]

/-- __enter__ never raises when lock_timeout is the sentinel -1. -/
theorem Conn.enter_ok_of_neg_one (c : Conn) (avail : Bool) (h : c.lock_timeout = -1) :
    (c.enter avail).1 = .ok { c with was_in_transaction := c.inTransaction } := by
  rcases Bool.eq_false_or_eq_true c.inTransaction with h1 | h1 <;>
    rcases Bool.eq_false_or_eq_true c.lock_transactions with h2 | h2 <;>
      cases hk : c.lock <;>
        simp [Conn.enter, h1, h2, h, hk, lockAcquire, fakeLockAcquire, rlockAcquire_neg_one]

/-- C4 counterexample: lock_timeout = 0 is non-positive, yet on a fresh
    connection whose lock stays contended through the window __enter__
    raises LockTimeoutError instead of waiting indefinitely, refuting the
    claim that a non-positive timeout never lets enter raise. -/
theorem c4_counterexample_zero_timeout_raises :
    ({ sampleConn with lock_timeout := 0 }).enter false
      = (.error (.lockTimeout { sampleConn with lock_timeout := 0 } 0),
         [.acquireAttempt .real 0]) := by
  decide

/-- C4 amended: only the sentinel -1 — the default, standing for an absent
    timeout — makes the acquisition wait indefinitely, and with it enter
    never raises LockTimeout nor any other acquisition error; a
    non-positive timeout in general does not wait: 0 performs a
    non-blocking attempt that raises LockTimeout when the lock stays
    contended, and a negative timeout other than -1 makes the acquisition
    call raise ValueError. -/
theorem c4_amended_only_neg_one_waits_indefinitely :
    (∀ (c : Conn) (avail : Bool), c.lock_timeout = -1 →
      (c.enter avail).1 = .ok { c with was_in_transaction := c.inTransaction })
    ∧ (∀ c : Conn, c.lock = .real → c.lock_timeout = 0 → c.inTransaction = false →
        (c.enter false).1 = .error (.lockTimeout c c.lock_timeout))
    ∧ (∀ (c : Conn) (avail : Bool), c.lock = .real → c.lock_timeout < 0 →
        c.lock_timeout ≠ -1 → c.inTransaction = false →
        (c.enter avail).1 = .error .valueError) := by
  refine ⟨Conn.enter_ok_of_neg_one, ?_, ?_⟩
  · intro c hk ht hin
    norm_num [Conn.enter, hin, hk, lockAcquire, rlockAcquire, ht, TIMEOUT_MAX]
  · intro c avail hk ht hne hin
    simp [Conn.enter, hin, hk, lockAcquire, rlockAcquire, ht, hne]

/-- C4 amended witness: the three branches of the amended claim evaluated
    at concrete timeouts -1, 0 and -2. -/
theorem c4_amended_witness :
    (sampleConn.enter false).1
        = .ok { sampleConn with was_in_transaction := sampleConn.inTransaction }
    ∧ (({ sampleConn with lock_timeout := 0 }).enter false).1
        = .error (.lockTimeout { sampleConn with lock_timeout := 0 }
            ({ sampleConn with lock_timeout := 0 }).lock_timeout)
    ∧ (({ sampleConn with lock_timeout := -2 }).enter true).1 = .error .valueError :=
  ⟨c4_amended_only_neg_one_waits_indefinitely.1 sampleConn false rfl,
   c4_amended_only_neg_one_waits_indefinitely.2.1 { sampleConn with lock_timeout := 0 }
     rfl rfl rfl,
   c4_amended_only_neg_one_waits_indefinitely.2.2 { sampleConn with lock_timeout := -2 }
     true rfl (by norm_num) (by norm_num) rfl⟩

/-- The connection object Connection.__init__ builds for ":memory:". -/
def memoryConn (lt : Bool) (lto : ℚ) : Conn :=
  { path := memoryMarker, lock := .fake, lock_timeout := lto, lock_transactions := lt,
    was_in_transaction := false, closed := false, cursorClosed := false,
    handleClosed := false, inTransaction := false }

/-- __enter__ on a FakeLock connection always succeeds immediately. -/
theorem Conn.enter_ok_of_fake (c : Conn) (avail : Bool) (h : c.lock = .fake) :
    (c.enter avail).1 = .ok { c with was_in_transaction := c.inTransaction } := by
  rcases Bool.eq_false_or_eq_true c.inTransaction with h1 | h1 <;>
    rcases Bool.eq_false_or_eq_true c.lock_transactions with h2 | h2 <;>
      simp [Conn.enter, h1, h2, h, lockAcquire, fakeLockAcquire]

/-- The scoped body on a FakeLock connection never produces a
    LockTimeoutError. -/
theorem Conn.withSelf_no_timeout_of_fake {α : Type} (c : Conn) (avail : Bool)
    (step : EngineStep α) (h : c.lock = .fake) (conn2 : Conn) (t : ℚ) :
    (c.withSelf avail step).result ≠ .error (.lockTimeout conn2 t) := by
  have h4 := c.enter_ok_of_fake avail h
  rcases he : c.enter avail with ⟨r, evs⟩
  rw [he] at h4
  simp only at h4
  subst h4
  cases hr : step.result <;> simp [Conn.withSelf, he, hr]

/-- A chained operation on a FakeLock connection never produces a
    LockTimeoutError. -/
theorem Conn.chained_no_timeout_of_fake (c : Conn) (avail : Bool)
    (step : EngineStep Unit) (h : c.lock = .fake) (conn2 : Conn) (t : ℚ) :
    (c.chained avail step).result ≠ .error (.lockTimeout conn2 t) := by
  have hw := c.withSelf_no_timeout_of_fake avail step h conn2 t
  unfold Conn.chained
  cases hr : (c.withSelf avail step).result with
  | error e =>
    rw [hr] at hw
    simp at hw
    simp [hr, hw, Except.map]
  | ok a => simp [hr, Except.map]

/-- C6: a session opened on ":memory:" leaves the registry untouched and
    is bound to the FakeLock (no entry is created, consulted or removed:
    close never touches the registry for any session either); FakeLock
    acquire and release both return True, so enter on such a session
    always succeeds and no delegated operation can produce a
    LockTimeoutError. -/
theorem c6_memory_session_no_registry_and_no_timeout :
    (∀ (cwd : List (List Char)) (w : World) (lt : Bool) (lto : ℚ),
      (w.openConn cwd memoryMarker lt lto).registry = w.registry
      ∧ (w.openConn cwd memoryMarker lt lto).conns = w.conns ++ [memoryConn lt lto]
      ∧ (memoryConn lt lto).lock = .fake)
    ∧ (∀ (w : World) (i : Nat), (w.closeConn i).registry = w.registry)
    ∧ fakeLockAcquire = true ∧ fakeLockRelease = true
    ∧ (∀ (c : Conn) (avail : Bool), c.lock = .fake →
        (c.enter avail).1 = .ok { c with was_in_transaction := c.inTransaction })
    ∧ (∀ (α : Type) (c : Conn) (avail : Bool) (step : EngineStep α) (conn2 : Conn) (t : ℚ),
        c.lock = .fake → (c.withSelf avail step).result ≠ .error (.lockTimeout conn2 t))
    ∧ (∀ (c : Conn) (avail : Bool) (step : EngineStep Unit) (conn2 : Conn) (t : ℚ),
        c.lock = .fake → (c.execute avail step).result ≠ .error (.lockTimeout conn2 t)) := by
  refine ⟨?_, fun w i => rfl, rfl, rfl,
    fun c avail h => c.enter_ok_of_fake avail h,
    fun α c avail step conn2 t h => c.withSelf_no_timeout_of_fake avail step h conn2 t,
    fun c avail step conn2 t h => c.chained_no_timeout_of_fake avail step h conn2 t⟩
  intro cwd w lt lto
  refine ⟨?_, ?_, rfl⟩ <;> simp [World.openConn, normalize_path, memoryMarker, memoryConn]

/-- C6 witness: the enter and execute conjuncts evaluated on concrete
    ":memory:" connections. -/
theorem c6_memory_witness :
    (((memoryConn true (-1)).enter false).1
        = .ok { memoryConn true (-1) with
                  was_in_transaction := (memoryConn true (-1)).inTransaction })
    ∧ ((memoryConn true 0).execute false ⟨.ok (), true⟩).result
        ≠ .error (.lockTimeout (memoryConn true 0) 0) :=
  ⟨c6_memory_session_no_registry_and_no_timeout.2.2.2.2.1 (memoryConn true (-1)) false rfl,
   c6_memory_session_no_registry_and_no_timeout.2.2.2.2.2.2 (memoryConn true 0) false
     ⟨.ok (), true⟩ (memoryConn true 0) 0 rfl⟩

/-- C7: when the engine call inside any delegated operation raises, the
    scope still runs __exit__ (appending its release decision for the
    post-call state) and the engine error is propagated unchanged, not
    wrapped. -/
theorem c7_engine_error_propagates_after_exit :
    ∀ (c c1 : Conn) (avail : Bool) (evs : List LockEvent) (n : Nat) (after : Bool)
      (size : Nat),
      c.enter avail = (.ok c1, evs) →
      (c.execute avail ⟨.error n, after⟩ =
        ⟨.error (.engine n), { c1 with inTransaction := after },
         evs ++ Conn.exit { c1 with inTransaction := after }, true⟩)
      ∧ (c.executemany avail ⟨.error n, after⟩ =
        ⟨.error (.engine n), { c1 with inTransaction := after },
         evs ++ Conn.exit { c1 with inTransaction := after }, true⟩)
      ∧ (c.executescript avail ⟨.error n, after⟩ =
        ⟨.error (.engine n), { c1 with inTransaction := after },
         evs ++ Conn.exit { c1 with inTransaction := after }, true⟩)
      ∧ (c.commit avail ⟨.error n, after⟩ =
        ⟨.error (.engine n), { c1 with inTransaction := after },
         evs ++ Conn.exit { c1 with inTransaction := after }, true⟩)
      ∧ (c.rollback avail ⟨.error n, after⟩ =
        ⟨.error (.engine n), { c1 with inTransaction := after },
         evs ++ Conn.exit { c1 with inTransaction := after }, true⟩)
      ∧ (c.fetchone avail ⟨.error n, after⟩ =
        ⟨.error (.engine n), { c1 with inTransaction := after },
         evs ++ Conn.exit { c1 with inTransaction := after }, true⟩)
      ∧ (c.fetchmany avail size ⟨.error n, after⟩ =
        ⟨.error (.engine n), { c1 with inTransaction := after },
         evs ++ Conn.exit { c1 with inTransaction := after }, true⟩)
      ∧ (c.fetchall avail ⟨.error n, after⟩ =
        ⟨.error (.engine n), { c1 with inTransaction := after },
         evs ++ Conn.exit { c1 with inTransaction := after }, true⟩) := by
  intro c c1 avail evs n after size h
  refine ⟨?_, ?_, ?_, ?_, ?_, ?_, ?_, ?_⟩ <;>
    simp [Conn.execute, Conn.executemany, Conn.executescript, Conn.commit, Conn.rollback,
      Conn.fetchone, Conn.fetchmany, Conn.fetchall, Conn.chained, Conn.withSelf, Except.map, h]

/-- C7 witness: an engine error propagated through execute on a fresh
    connection whose enter acquired the lock. -/
theorem c7_engine_error_witness :
    sampleConn.execute true ⟨.error 5, false⟩ =
      ⟨.error (.engine 5), { sampleConn with was_in_transaction := false },
       [.acquireAttempt .real (-1)] ++
         Conn.exit { sampleConn with was_in_transaction := false }, true⟩ :=
  (c7_engine_error_propagates_after_exit sampleConn
    { sampleConn with was_in_transaction := false } true
    [.acquireAttempt .real (-1)] 5 false 0 (by decide)).1

/-- C8: when the bounded acquisition of enter times out (a nonnegative
    lock_timeout no larger than threading.TIMEOUT_MAX, lock contended
    through the window), every delegated operation fails with
    LockTimeoutError carrying the session itself and its configured
    timeout, the engine is never invoked, and the connection state is
    unchanged.  The acquisition is attempted in both situations the code
    allows: the session not in a transaction, or lock_transactions
    disabled (where it is attempted even inside a transaction). -/
theorem c8_timeout_aborts_before_engine :
    ∀ (c : Conn) (stepU : EngineStep Unit) (stepO : EngineStep (Option Row))
      (stepL : EngineStep (List Row)) (size : Nat),
      c.lock = .real → 0 ≤ c.lock_timeout → c.lock_timeout ≤ TIMEOUT_MAX →
      (c.inTransaction = false ∨ c.lock_transactions = false) →
      (c.execute false stepU =
        ⟨.error (.lockTimeout c c.lock_timeout), c,
         [.acquireAttempt c.lock c.lock_timeout], false⟩)
      ∧ (c.executemany false stepU =
        ⟨.error (.lockTimeout c c.lock_timeout), c,
         [.acquireAttempt c.lock c.lock_timeout], false⟩)
      ∧ (c.executescript false stepU =
        ⟨.error (.lockTimeout c c.lock_timeout), c,
         [.acquireAttempt c.lock c.lock_timeout], false⟩)
      ∧ (c.commit false stepU =
        ⟨.error (.lockTimeout c c.lock_timeout), c,
         [.acquireAttempt c.lock c.lock_timeout], false⟩)
      ∧ (c.rollback false stepU =
        ⟨.error (.lockTimeout c c.lock_timeout), c,
         [.acquireAttempt c.lock c.lock_timeout], false⟩)
      ∧ (c.fetchone false stepO =
        ⟨.error (.lockTimeout c c.lock_timeout), c,
         [.acquireAttempt c.lock c.lock_timeout], false⟩)
      ∧ (c.fetchmany false size stepL =
        ⟨.error (.lockTimeout c c.lock_timeout), c,
         [.acquireAttempt c.lock c.lock_timeout], false⟩)
      ∧ (c.fetchall false stepL =
        ⟨.error (.lockTimeout c c.lock_timeout), c,
         [.acquireAttempt c.lock c.lock_timeout], false⟩) := by
  intro c stepU stepO stepL size hk ht hmax hg
  have hne : c.lock_timeout ≠ -1 := by
    intro hh
    rw [hh] at ht
    norm_num at ht
  have hacq : lockAcquire c.lock c.lock_timeout false = .ok false := by
    rw [hk]
    show rlockAcquire c.lock_timeout false = .ok false
    unfold rlockAcquire
    rw [if_neg fun hcon => absurd hcon.1 (not_lt.mpr ht), if_neg (not_lt.mpr hmax),
      if_neg hne]
  have hguard : (!c.inTransaction || !c.lock_transactions) = true := by
    rcases hg with h | h <;> simp [h]
  have henter : c.enter false =
      (.error (.lockTimeout c c.lock_timeout), [.acquireAttempt c.lock c.lock_timeout]) := by
    simp [Conn.enter, hguard, hacq]
  refine ⟨?_, ?_, ?_, ?_, ?_, ?_, ?_, ?_⟩ <;>
    simp [Conn.execute, Conn.executemany, Conn.executescript, Conn.commit, Conn.rollback,
      Conn.fetchone, Conn.fetchmany, Conn.fetchall, Conn.chained, Conn.withSelf, Except.map,
      henter]

/-- A connection inside an open transaction with lock_transactions
    disabled and a one-second lock_timeout: __enter__ still attempts the
    bounded acquisition for it. -/
def midTxnUnlockedConn : Conn :=
  { sampleConn with lock_timeout := 1, inTransaction := true, lock_transactions := false }

/-- C8 witness: the timeout abort evaluated on two concrete connections
    with pending engine steps that are never reached — one not in a
    transaction with lock_timeout 0, and one inside a transaction with
    lock_transactions disabled and lock_timeout 1, the case where
    acquisition is still attempted. -/
theorem c8_timeout_witness :
    ({ sampleConn with lock_timeout := 0 }).commit false ⟨.ok (), true⟩ =
      ⟨.error (.lockTimeout { sampleConn with lock_timeout := 0 } 0),
       { sampleConn with lock_timeout := 0 }, [.acquireAttempt .real 0], false⟩
    ∧ midTxnUnlockedConn.execute false ⟨.ok (), true⟩ =
      ⟨.error (.lockTimeout midTxnUnlockedConn 1), midTxnUnlockedConn,
       [.acquireAttempt .real 1], false⟩ :=
  ⟨(c8_timeout_aborts_before_engine { sampleConn with lock_timeout := 0 }
     ⟨.ok (), true⟩ ⟨.ok none, true⟩ ⟨.ok [], true⟩ 0 rfl (by norm_num)
     (by norm_num [TIMEOUT_MAX]) (Or.inl rfl)).2.2.2.1,
   (c8_timeout_aborts_before_engine midTxnUnlockedConn
     ⟨.ok (), true⟩ ⟨.ok none, true⟩ ⟨.ok [], true⟩ 0 rfl (by decide)
     (by decide) (Or.inr rfl)).1⟩

/-- C9: close is idempotent — the first call closes the cursor and the
    engine handle and sets the latch, any further call (including the one
    from __del__) is a no-op — and no close ever performs a lock
    operation or modifies the registry. -/
theorem c9_close_idempotent_and_registry_frame :
    ∀ (c : Conn) (w : World) (i : Nat),
      (c.closed = false →
        c.close = ({ c with cursorClosed := true, handleClosed := true, closed := true }, []))
      ∧ (c.closed = true → c.close = (c, []))
      ∧ (c.close).1.closed = true
      ∧ (c.close).1.close = ((c.close).1, [])
      ∧ c.del = c.close
      ∧ (c.close).2 = []
      ∧ (w.closeConn i).registry = w.registry := by
  intro c w i
  refine ⟨?_, ?_, ?_, ?_, rfl, ?_, rfl⟩ <;>
    rcases Bool.eq_false_or_eq_true c.closed with h | h <;> simp [Conn.close, h]

/-- C9 witness: first close on a fresh connection, second close on the
    result, and the registry frame on a concrete world. -/
theorem c9_close_witness :
    sampleConn.close =
      ({ sampleConn with cursorClosed := true, handleClosed := true, closed := true }, [])
    ∧ (sampleConn.close).1.close = ((sampleConn.close).1, [])
    ∧ ((World.mk ["/tmp/db"] [sampleConn]).closeConn 0).registry = ["/tmp/db"] :=
  ⟨(c9_close_idempotent_and_registry_frame sampleConn ⟨[], []⟩ 0).1 rfl,
   (c9_close_idempotent_and_registry_frame sampleConn ⟨[], []⟩ 0).2.2.2.1,
   (c9_close_idempotent_and_registry_frame sampleConn
     ⟨["/tmp/db"], [sampleConn]⟩ 0).2.2.2.2.2.2⟩

/-- The working directory used for the concrete registry runs. -/
def cwd0 : List (List Char) := []

/-- C1 failing input: a connection opened on a filesystem path and then
    closed.  Every session bound to the key is closed, yet
    CONNECTION_LOCKS still holds the entry, because Connection.close
    never decrements a refcount or evicts — while the claim, the spec's
    registry accounting, and the test suite's teardown assertion that the
    registry end up empty all require eviction.  The second half of the
    claim does hold: one entry, not more, regardless of how many sessions
    share the key, as the second run shows. -/
theorem c1_registry_entry_survives_close :
    (let w := World.run cwd0 [.openPath "/tmp/s3m_test.db" true (-1), .closeIdx 0]
     (w.conns.all fun c => c.closed) = true ∧ w.registry = ["/tmp/s3m_test.db"])
    ∧ (let w2 := World.run cwd0
         [.openPath "/tmp/s3m_test.db" true (-1), .openPath "/tmp/s3m_test.db" true (-1),
          .closeIdx 0, .closeIdx 1]
       (w2.conns.all fun c => c.closed) = true ∧ w2.registry = ["/tmp/s3m_test.db"]) := by
  decide

/-- C5: canonicalization is idempotent for every input (the working
    directory of the second application being arbitrary, since the first
    result is absolute); a trailing separator, a repeated separator, a
    redundant "." segment, and a name segment cancelled by ".." all
    canonicalize to the key of the clean form; and the marker ":memory:"
    canonicalizes to itself.  The working directory, where it matters, is
    any component list free of the separator, as os.getcwd() provides. -/
theorem c5_canonicalize_idempotent_and_segment_invariant :
    (∀ (cwd cwd2 : List (List Char)) (p : String), (∀ c ∈ cwd, '/' ∉ c) →
      normalize_path cwd2 (normalize_path cwd p) = normalize_path cwd p)
    ∧ (∀ (cwd : List (List Char)) (s : String), s ≠ "" → s ≠ memoryMarker →
        normalize_path cwd (s ++ "/") = normalize_path cwd s)
    ∧ (∀ (cwd : List (List Char)) (a b : String),
        normalize_path cwd (a ++ "//" ++ b) = normalize_path cwd (a ++ "/" ++ b))
    ∧ (∀ (cwd : List (List Char)) (a b : String),
        normalize_path cwd (a ++ "/./" ++ b) = normalize_path cwd (a ++ "/" ++ b))
    ∧ (∀ (cwd : List (List Char)) (a b : String) (n : List Char), goodComp n →
        normalize_path cwd (a ++ "/" ++ String.mk n ++ "/../" ++ b)
          = normalize_path cwd (a ++ "/" ++ b))
    ∧ (∀ cwd : List (List Char), normalize_path cwd memoryMarker = memoryMarker) :=
  ⟨normalize_path_idem, normalize_path_trailing_sep, normalize_path_double_sep,
   normalize_path_curdir_seg, normalize_path_pardir_seg, fun _ => rfl⟩

/-- C5 witness: every part of the theorem evaluated on concrete paths
    drawn from the doctest of normalize_path. -/
theorem c5_canonicalize_witness :
    normalize_path [] (normalize_path [] "/a/././b/../b/c/")
        = normalize_path [] "/a/././b/../b/c/"
    ∧ normalize_path [] ("/a/b/c" ++ "/") = normalize_path [] "/a/b/c"
    ∧ normalize_path [] ("" ++ "//" ++ "a/b/c") = normalize_path [] ("" ++ "/" ++ "a/b/c")
    ∧ normalize_path [] ("/a" ++ "/./" ++ "b/c") = normalize_path [] ("/a" ++ "/" ++ "b/c")
    ∧ normalize_path [] ("/a" ++ "/" ++ String.mk ['b'] ++ "/../" ++ "b/c")
        = normalize_path [] ("/a" ++ "/" ++ "b/c")
    ∧ normalize_path [] memoryMarker = memoryMarker :=
  ⟨c5_canonicalize_idempotent_and_segment_invariant.1 [] [] "/a/././b/../b/c/" (by simp),
   c5_canonicalize_idempotent_and_segment_invariant.2.1 [] "/a/b/c" (by decide) (by decide),
   c5_canonicalize_idempotent_and_segment_invariant.2.2.1 [] "" "a/b/c",
   c5_canonicalize_idempotent_and_segment_invariant.2.2.2.1 [] "/a" "b/c",
   c5_canonicalize_idempotent_and_segment_invariant.2.2.2.2.1 [] "/a" "b/c" ['b']
     ⟨by decide, by decide, by decide, by decide⟩,
   c5_canonicalize_idempotent_and_segment_invariant.2.2.2.2.2 []⟩

end S3M
